import Mathlib

/-!
Verification development for the promptops repository.

We shallowly embed the three core components and the orchestration decision
the claims are about:

* `src/encrypt.ts` (`encrypt`): AES-256-GCM sealing of a string under a
  64-hex-character key.  The external Node `crypto` primitives (the random
  byte source and the block cipher) are passed in explicitly: randomness is
  an explicit entropy byte list consumed by `randomBytes`, and the cipher is
  a `Cipher` record of pure functions.  Bytes are `Fin 256`.
* `src/oauth.ts` (`refreshOAuthToken`, `refreshToken`): the request body
  construction and the response merge of the refresh-token exchange.
* `src/index.ts` (`runCommand`, `setupConfig`): the Node event-loop state of
  one `runCommand` promise is an explicit `RunState` folded over the ordered
  list of `error` / `data` / `close` events the child process emits, and the
  credential chosen by `setupConfig` is computed from the parsed token.
-/

namespace PromptOps

/-! ### Bytes and hex encoding (Node `Buffer` hex conventions) -/

/-- A byte, as handled by Node `Buffer`s. -/
abbrev Byte := Fin 256

/-- Lower-case hex digit for `n < 16`, as produced by `Buffer.toString('hex')`:
`0`-`9` then `a`-`f`. -/
def hexDigitChar (n : Nat) : Char :=
  if n < 10 then Char.ofNat (48 + n) else Char.ofNat (87 + n)

/-- Hex encoding of one byte: two lower-case hex digits, big nibble first. -/
def byteToHex (b : Byte) : List Char :=
  [hexDigitChar (b.val / 16), hexDigitChar (b.val % 16)]

/-- `Buffer.toString('hex')`: concatenation of the per-byte encodings. -/
def bytesToHex : List Byte → List Char
  | [] => []
  | b :: bs => byteToHex b ++ bytesToHex bs

/-- Lower-case hex digit test (`0`-`9`, `a`-`f`), the alphabet
`Buffer.toString('hex')` emits. -/
def isHexLower (c : Char) : Bool :=
  (('0' ≤ c) && (c ≤ '9')) || (('a' ≤ c) && (c ≤ 'f'))

/-- Case-insensitive hex digit test, the character class of the key
validation regex `/^[0-9a-f]{64}$/i`. -/
def isHexCI (c : Char) : Bool :=
  (('0' ≤ c) && (c ≤ '9')) || (('a' ≤ c) && (c ≤ 'f')) || (('A' ≤ c) && (c ≤ 'F'))

/-- Numeric value of a hex digit (0 for non-hex input, which
`Buffer.from(·, 'hex')` never receives on the validated path). -/
def hexVal (c : Char) : Nat :=
  if ('0' ≤ c) && (c ≤ '9') then c.toNat - 48
  else if ('a' ≤ c) && (c ≤ 'f') then c.toNat - 87
  else if ('A' ≤ c) && (c ≤ 'F') then c.toNat - 55
  else 0

/-- Clamp a `Nat` into a byte. -/
def mkByte (n : Nat) : Byte := ⟨n % 256, Nat.mod_lt _ (by norm_num)⟩

/-- `Buffer.from(s, 'hex')`: consume hex digit pairs into bytes. -/
def hexToBytes : List Char → List Byte
  | c1 :: c2 :: rest => mkByte (hexVal c1 * 16 + hexVal c2) :: hexToBytes rest
  | _ => []

/-- Split a character list on a separator character; on a list with `k`
separators the result has exactly `k + 1` (possibly empty) chunks, the
semantics of `String.split(sep)` for the one-character separators used here. -/
def splitOnCh (sep : Char) : List Char → List (List Char)
  | [] => [[]]
  | c :: rest =>
    if c = sep then [] :: splitOnCh sep rest
    else
      match splitOnCh sep rest with
      | [] => [[c]]
      | s :: ss => (c :: s) :: ss

/-! ### `src/encrypt.ts` -/

/-- The key validation of `encrypt`, the regex `/^[0-9a-f]{64}$/i`:
exactly 64 case-insensitive hex characters. -/
def isValidKeyHex (s : String) : Bool :=
  (s.data.length == 64) && s.data.all isHexCI

/-- The external AES-256-GCM primitive from Node `crypto`, as a pure oracle:
`encBytes key iv plaintext` is the ciphertext byte string produced by
`cipher.update`/`cipher.final`, and `authTag key iv plaintext` the 16-byte
GCM authentication tag returned by `cipher.getAuthTag()`. -/
structure Cipher where
  encBytes : List Byte → List Byte → String → List Byte
  authTag : List Byte → List Byte → String → List Byte

/-- `crypto.randomBytes n`: the next `n` bytes of the ambient entropy. -/
def randomBytes (n : Nat) (entropy : List Byte) : List Byte := entropy.take n

/-- `encrypt(value, keyHex)` from `src/encrypt.ts`, with the `crypto`
primitives explicit.  Validates the key, derives the 32-byte key buffer,
draws a fresh 12-byte IV from the entropy source, runs the cipher, and
returns `hex(iv) ++ ":" ++ hex(tag) ++ ":" ++ hex(ciphertext)` (the payload
as a character list).  An invalid key throws, modelled as `Except.error`
with the thrown message, before any cipher operation. -/
def encrypt (C : Cipher) (entropy : List Byte) (value keyHex : String) :
    Except String (List Char) :=
  if isValidKeyHex keyHex then
    let key := hexToBytes keyHex.data
    let iv := randomBytes 12 entropy
    let encrypted := C.encBytes key iv value
    let tag := C.authTag key iv value
    .ok (bytesToHex iv ++ (':' :: (bytesToHex tag ++ (':' :: bytesToHex encrypted))))
  else
    .error "Key must be 64 hexadecimal characters (0-f)"

/-! ### `src/oauth.ts` -/

/-- The runtime shape of an OAuth token JSON object.  Every field is
optional because this also models the raw parsed response body, in which any
key may be absent; `none` means the key is absent from the object. -/
structure TokenObj where
  access_token : Option String := none
  refresh_token : Option String := none
  expires_in : Option Int := none
  token_type : Option String := none
  scope : Option String := none
  id_token : Option String := none
deriving DecidableEq

/-- The parameters of `refreshOAuthToken` (a `ProviderRefreshSpec` plus the
current refresh token); `clientSecret = none` models an `undefined` optional
field. -/
structure RefreshParams where
  tokenEndpoint : String
  clientId : String
  clientSecret : Option String
  refreshToken : String

/-- The `body` object literal of `refreshOAuthToken`, as the ordered
key/value list of its own enumerable properties:
`grant_type`, `refresh_token`, `client_id`, then — only when `clientSecret`
is truthy (defined and not the empty string) — `client_secret`.  This is the
association list that `objectToUrlEncoded` then form-encodes. -/
def refreshRequestBody (p : RefreshParams) : List (String × String) :=
  [("grant_type", "refresh_token"),
   ("refresh_token", p.refreshToken),
   ("client_id", p.clientId)] ++
  (match p.clientSecret with
   | some s => if s = "" then [] else [("client_secret", s)]
   | none => [])

/-- The value returned by `refreshOAuthToken` on a success status, from
`return { refresh_token: refreshToken, ...res.json() };`.  `res.json()` is a
`Promise` and is *not* awaited at this call site; spreading a `Promise`
object contributes no enumerable own properties, so the parsed response body
`resp` is discarded entirely and the result carries only the input refresh
token. -/
def refreshOAuthTokenResult (refreshTok : String) (resp : TokenObj) : TokenObj :=
  let _ := resp
  { refresh_token := some refreshTok }

/-- Modelled from the spec: the intended success-path merge of
`refreshOAuthToken` ("parses the JSON body and merges it into a Credential
that always carries the *original* refresh token as a default, overridden
only if the response explicitly includes a new one").  This is what
`{ refresh_token: refreshToken, ...await res.json() }` computes: every field
of the parsed body wins when present, and the refresh token defaults to the
input one when the body omits it. -/
def refreshOAuthTokenIntended (refreshTok : String) (resp : TokenObj) : TokenObj :=
  { access_token := resp.access_token,
    refresh_token := some (resp.refresh_token.getD refreshTok),
    expires_in := resp.expires_in,
    token_type := resp.token_type,
    scope := resp.scope,
    id_token := resp.id_token }

/-! ### `src/index.ts`: `runCommand` -/

/-- JavaScript whitespace as relevant to `String.prototype.trim` (the ASCII
part of the class; the subprocess texts involved are ASCII). -/
def jsWs (c : Char) : Bool :=
  c = ' ' || c = '\t' || c = '\n' || c = '\r' || c = '\x0b' || c = '\x0c'

/-- `String.prototype.trim`: remove whitespace from both ends. -/
def jsTrim (l : List Char) : List Char :=
  ((l.dropWhile jsWs).reverse.dropWhile jsWs).reverse

/-- `s.replace(/\r/g, '\n')`: every carriage return becomes a newline. -/
def crToLf (l : List Char) : List Char :=
  l.map (fun c => if c = '\r' then '\n' else c)

/-- One event delivered to the handlers `runCommand` installs on the spawned
child process: the `error` event (launch failure), a `data` chunk on stdout
or stderr, or the `close` event with the exit code (`none` models a `null`
code, i.e. termination by signal). -/
inductive PEvent where
  | errorEvt (msg : String)
  | outData (chunk : List Char)
  | errData (chunk : List Char)
  | close (code : Option Int)
deriving DecidableEq

/-- The settled value of the `runCommand` promise: `resolve(output.trim())`
on a zero exit, rejection with the launch error on an `error` event, or
rejection with the exit code and accumulated stderr text on a nonzero
(or `null`) exit code. -/
inductive POutcome where
  | success (output : List Char)
  | launchFailure (msg : String)
  | exitFailure (code : Option Int) (stderr : List Char)
deriving DecidableEq

/-- The mutable state of one `runCommand` call: the `output` and `error`
accumulators, the text echoed to the caller's console so far, and the
`settled` guard together with the settled outcome (`none` while pending). -/
structure RunState where
  output : List Char
  error : List Char
  echoed : List Char
  settled : Option POutcome
deriving DecidableEq

/-- The state before any child-process event fires. -/
def initState : RunState := ⟨[], [], [], none⟩

/-- One child-process event, as handled by the callbacks in `runCommand`:
* `error` → `fail(err)`, which settles only if not already settled;
* stdout `data` → echo the chunk with `\r` replaced by `\n`, accumulate the
  raw chunk into `output`;
* stderr `data` → echo likewise unless `hideError`, accumulate into `error`;
* `close` → if not settled: `fail` with the code and accumulated stderr when
  the code is not 0, else `resolve(output.trim())`. -/
def step (hideError : Bool) (st : RunState) (e : PEvent) : RunState :=
  match e with
  | .errorEvt msg =>
    if st.settled.isSome then st
    else { st with settled := some (.launchFailure msg) }
  | .outData chunk =>
    { st with output := st.output ++ chunk, echoed := st.echoed ++ crToLf chunk }
  | .errData chunk =>
    { st with error := st.error ++ chunk,
              echoed := if hideError then st.echoed else st.echoed ++ crToLf chunk }
  | .close code =>
    if st.settled.isSome then st
    else if code ≠ some 0 then { st with settled := some (.exitFailure code st.error) }
    else { st with settled := some (.success (jsTrim st.output)) }

/-- The state of one `runCommand` call after an ordered list of
child-process events has been delivered. -/
def runEvents (hideError : Bool) (events : List PEvent) : RunState :=
  events.foldl (step hideError) initState

/-- The raw standard-output text a trace of events carries. -/
def stdoutData : List PEvent → List Char
  | [] => []
  | .outData c :: rest => c ++ stdoutData rest
  | _ :: rest => stdoutData rest

/-- The raw error-stream text a trace of events carries. -/
def stderrData : List PEvent → List Char
  | [] => []
  | .errData c :: rest => c ++ stderrData rest
  | _ :: rest => stderrData rest

/-- The console text the stream handlers echo for a trace of events. -/
def echoedData (hideError : Bool) : List PEvent → List Char
  | [] => []
  | .outData c :: rest => crToLf c ++ echoedData hideError rest
  | .errData c :: rest =>
    (if hideError then [] else crToLf c) ++ echoedData hideError rest
  | _ :: rest => echoedData hideError rest

/-- Stream-data events (no `error`, no `close`). -/
def isDataEvent : PEvent → Bool
  | .outData _ => true
  | .errData _ => true
  | _ => false

/-- Standard-output data events only. -/
def isOutData : PEvent → Bool
  | .outData _ => true
  | _ => false

/-- The writes `runCommand` performs on the child's stdin stream. -/
inductive StdinAction where
  | write (s : String)
  | closeStream
deriving DecidableEq

/-- The stdin handling of `runCommand`: `if (stdin) { write; end; }`.  The
guard is JavaScript truthiness, so the block runs only when `stdin` is
defined *and* not the empty string; otherwise the stream is neither written
nor closed. -/
def stdinActions : Option String → List StdinAction
  | some s => if s = "" then [] else [.write s, .closeStream]
  | none => []

/-! ### `src/index.ts`: `setupConfig` credential decision -/

/-- The credential string `setupConfig` writes to `oauth_creds.json`, given
the raw secret `token` from the environment, its parsed form `td`, and the
external token exchange `refresh` (the `refreshToken` dispatch, applied to
the parsed refresh token).  Mirrors lines 204-220 of `src/index.ts`: throw
(`Except.error`) when the parsed token has no `refresh_token`; otherwise
exchange only for the `gemini` agent and keep the original string verbatim
for every other agent. -/
def setupConfigCred (refresh : String → String) (agent token : String)
    (td : TokenObj) : Except String String :=
  match td.refresh_token with
  | none => .error "Missing refresh token"
  | some rt => .ok (if agent = "gemini" then refresh rt else token)

/-! ### Concrete cipher fixture for evaluating the model -/

/-- A concrete `Cipher` instance used to evaluate the embedding on closed
inputs: the ciphertext is the IV itself and the tag is 16 zero bytes. -/
def ivCipher : Cipher :=
  ⟨fun _ iv _ => iv, fun _ _ _ => List.replicate 16 (0 : Byte)⟩

/-- Fixture: the parsed success response of a provider that rotates refresh
tokens (all the fields the spec's response wire format names). -/
def rotatedResponse : TokenObj :=
  { access_token := some "A", refresh_token := some "NEW",
    expires_in := some 3600, token_type := some "Bearer" }

/-- Fixture: a refresh spec whose client secret is supplied but empty. -/
def emptySecretParams : RefreshParams :=
  { tokenEndpoint := "https://token.example", clientId := "id",
    clientSecret := some "", refreshToken := "rt" }

/-- Fixture: a refresh spec with a non-empty client secret. -/
def secretParams : RefreshParams :=
  { tokenEndpoint := "https://token.example", clientId := "id",
    clientSecret := some "sec", refreshToken := "rt" }

/-- Fixture: a parsed stored token carrying a refresh token. -/
def storedToken : TokenObj :=
  { access_token := some "OLDACCESS", refresh_token := some "RT",
    expires_in := some 3600, token_type := some "Bearer" }

/-- Fixture: the all-zero 64-hex-character key of the spec's end-to-end
scenario. -/
def zeros64 : String :=
  "0000000000000000000000000000000000000000000000000000000000000000"

/-! ## Helper lemmas -/

theorem isHexLower_hexDigitChar {n : Nat} (h : n < 16) :
    isHexLower (hexDigitChar n) = true := by
  have h16 : ∀ m : Fin 16, isHexLower (hexDigitChar m.val) = true := by decide
  exact h16 ⟨n, h⟩

theorem hexDigitChar_inj {m n : Nat} (hm : m < 16) (hn : n < 16)
    (h : hexDigitChar m = hexDigitChar n) : m = n := by
  have h16 : ∀ a b : Fin 16, hexDigitChar a.val = hexDigitChar b.val → a = b := by decide
  have := h16 ⟨m, hm⟩ ⟨n, hn⟩ h
  exact congrArg Fin.val this

theorem byteToHex_all_hex (b : Byte) : (byteToHex b).all isHexLower = true := by
  have h1 : b.val / 16 < 16 := Nat.div_lt_of_lt_mul (by have := b.isLt; omega)
  have h2 : b.val % 16 < 16 := Nat.mod_lt _ (by norm_num)
  simp [byteToHex, isHexLower_hexDigitChar h1, isHexLower_hexDigitChar h2]

theorem bytesToHex_all_hex (bs : List Byte) :
    (bytesToHex bs).all isHexLower = true := by
  induction bs with
  | nil => rfl
  | cons b bs ih => simp [bytesToHex, List.all_append, byteToHex_all_hex b, ih]

theorem bytesToHex_length (bs : List Byte) :
    (bytesToHex bs).length = 2 * bs.length := by
  induction bs with
  | nil => rfl
  | cons b bs ih => simp [bytesToHex, byteToHex, ih]; omega

theorem colon_not_mem_bytesToHex (bs : List Byte) : ':' ∉ bytesToHex bs := by
  intro hm
  have hall := bytesToHex_all_hex bs
  rw [List.all_eq_true] at hall
  have := hall _ hm
  simp [isHexLower] at this

theorem byteToHex_inj {b1 b2 : Byte} (h : byteToHex b1 = byteToHex b2) :
    b1 = b2 := by
  simp only [byteToHex, List.cons.injEq, and_true] at h
  have h1 : b1.val / 16 < 16 := Nat.div_lt_of_lt_mul (by have := b1.isLt; omega)
  have h2 : b2.val / 16 < 16 := Nat.div_lt_of_lt_mul (by have := b2.isLt; omega)
  have h3 : b1.val % 16 < 16 := Nat.mod_lt _ (by norm_num)
  have h4 : b2.val % 16 < 16 := Nat.mod_lt _ (by norm_num)
  have hd := hexDigitChar_inj h1 h2 h.1
  have hm := hexDigitChar_inj h3 h4 h.2
  have e1 := Nat.div_add_mod b1.val 16
  have e2 := Nat.div_add_mod b2.val 16
  apply Fin.ext
  omega

theorem bytesToHex_inj : ∀ {bs1 bs2 : List Byte},
    bytesToHex bs1 = bytesToHex bs2 → bs1 = bs2 := by
  intro bs1
  induction bs1 with
  | nil =>
    intro bs2 h
    cases bs2 with
    | nil => rfl
    | cons b bs => simp [bytesToHex, byteToHex] at h
  | cons b bs ih =>
    intro bs2 h
    cases bs2 with
    | nil => simp [bytesToHex, byteToHex] at h
    | cons b2 bs2 =>
      simp only [bytesToHex, byteToHex, List.cons_append, List.nil_append,
        List.cons.injEq] at h
      obtain ⟨hh1, hh2, ht⟩ := h
      have hb : b = b2 := byteToHex_inj (by simp [byteToHex, hh1, hh2])
      rw [hb, ih ht]

theorem splitOnCh_no_sep {sep : Char} {l : List Char} (h : sep ∉ l) :
    splitOnCh sep l = [l] := by
  induction l with
  | nil => rfl
  | cons c rest ih =>
    have hc : ¬ c = sep := fun e => h (e ▸ List.mem_cons_self c rest)
    have hr : sep ∉ rest := fun hm => h (List.mem_cons_of_mem _ hm)
    simp [splitOnCh, hc, ih hr]

theorem splitOnCh_append {sep : Char} {a : List Char} (r : List Char)
    (ha : sep ∉ a) :
    splitOnCh sep (a ++ sep :: r) = a :: splitOnCh sep r := by
  induction a with
  | nil => simp [splitOnCh]
  | cons c as ih =>
    have hc : ¬ c = sep := fun e => ha (e ▸ List.mem_cons_self c as)
    have ha' : sep ∉ as := fun hm => ha (List.mem_cons_of_mem _ hm)
    simp [splitOnCh, hc, ih ha']

theorem splitOnCh_three {iv tag ct : List Char} (h1 : ':' ∉ iv) (h2 : ':' ∉ tag)
    (h3 : ':' ∉ ct) :
    splitOnCh ':' (iv ++ (':' :: (tag ++ (':' :: ct)))) = [iv, tag, ct] := by
  rw [splitOnCh_append _ h1, splitOnCh_append _ h2, splitOnCh_no_sep h3]

theorem foldl_data_events (hideError : Bool) (pre : List PEvent) :
    ∀ st : RunState, pre.all isDataEvent = true →
      pre.foldl (step hideError) st =
        ⟨st.output ++ stdoutData pre, st.error ++ stderrData pre,
         st.echoed ++ echoedData hideError pre, st.settled⟩ := by
  induction pre with
  | nil =>
    intro st _
    cases st
    simp [stdoutData, stderrData, echoedData]
  | cons e rest ih =>
    intro st hall
    rw [List.all_cons, Bool.and_eq_true] at hall
    cases e with
    | errorEvt msg => simp [isDataEvent] at hall
    | close code => simp [isDataEvent] at hall
    | outData c =>
      simp only [List.foldl_cons, step]
      rw [ih _ hall.2]
      simp [stdoutData, stderrData, echoedData, List.append_assoc]
    | errData c =>
      simp only [List.foldl_cons, step]
      rw [ih _ hall.2]
      cases hideError <;>
        simp [stdoutData, stderrData, echoedData, List.append_assoc]

theorem step_settled_some (hideError : Bool) (e : PEvent) {st : RunState}
    {o : POutcome} (h : st.settled = some o) :
    (step hideError st e).settled = some o := by
  cases e <;> simp [step, h]

theorem foldl_settled_some (hideError : Bool) (events : List PEvent) :
    ∀ {st : RunState} {o : POutcome}, st.settled = some o →
      (events.foldl (step hideError) st).settled = some o := by
  induction events with
  | nil => intro st o h; exact h
  | cons e rest ih =>
    intro st o h
    exact ih (step_settled_some hideError e h)

theorem echoedData_of_outData (hideError : Bool) (pre : List PEvent)
    (h : pre.all isOutData = true) :
    echoedData hideError pre = crToLf (stdoutData pre) := by
  induction pre with
  | nil => rfl
  | cons e rest ih =>
    rw [List.all_cons, Bool.and_eq_true] at h
    cases e with
    | outData c =>
      simp [echoedData, stdoutData, crToLf, List.map_append] at *
      exact ih h.2
    | errData c => simp [isOutData] at h
    | errorEvt msg => simp [isOutData] at h
    | close code => simp [isOutData] at h

theorem outData_all_data {pre : List PEvent} (h : pre.all isOutData = true) :
    pre.all isDataEvent = true := by
  rw [List.all_eq_true] at h ⊢
  intro e he
  have := h e he
  cases e <;> simp [isOutData, isDataEvent] at this ⊢

theorem jsTrim_sublist (l : List Char) : List.Sublist (jsTrim l) l := by
  have h1 : List.Sublist (l.dropWhile jsWs) l := (List.dropWhile_suffix _).sublist
  have h2 : List.Sublist ((l.dropWhile jsWs).reverse.dropWhile jsWs)
      (l.dropWhile jsWs).reverse := (List.dropWhile_suffix _).sublist
  have h3 := h2.reverse
  rw [List.reverse_reverse] at h3
  exact h3.trans h1

theorem cr_not_mem_crToLf (l : List Char) : '\r' ∉ crToLf l := by
  intro hm
  rcases List.mem_map.1 hm with ⟨c, _, hc⟩
  by_cases h : c = '\r' <;> simp [h] at hc

theorem jsTrim_ne_crToLf {l : List Char} (h : '\r' ∈ l) :
    jsTrim l ≠ crToLf l := by
  intro he
  have hlen : (jsTrim l).length = l.length := by
    rw [he]; exact List.length_map _ _
  have heq : jsTrim l = l := (jsTrim_sublist l).eq_of_length hlen
  have hcl : crToLf l = l := by rw [← he]; exact heq
  rw [← hcl] at h
  exact cr_not_mem_crToLf l h

/-! ## Claims -/

/-- C1: the claim says a successful refresh merges the parsed response body
over a default carry-over of the input refresh token.  The code does not: at
`return { refresh_token: refreshToken, ...res.json() }` the promise returned
by `res.json()` is never awaited, so the spread contributes nothing and the
response body — including a rotated `refresh_token` and the `access_token` —
is discarded.  At the failing input (input token `"OLD"`, response body
`rotatedResponse`) the code yields an object carrying only
`refresh_token = "OLD"`, while the intended merge (`refreshOAuthTokenIntended`)
yields `refresh_token = "NEW"` and `access_token = "A"`. -/
theorem refreshOAuthToken_discards_response_body :
    refreshOAuthTokenResult "OLD" rotatedResponse
      = { refresh_token := some "OLD" }
    ∧ (refreshOAuthTokenResult "OLD" rotatedResponse).access_token = none
    ∧ (refreshOAuthTokenResult "OLD" rotatedResponse).refresh_token = some "OLD"
    ∧ (refreshOAuthTokenIntended "OLD" rotatedResponse).refresh_token = some "NEW"
    ∧ (refreshOAuthTokenIntended "OLD" rotatedResponse).access_token = some "A"
    ∧ refreshOAuthTokenResult "OLD" rotatedResponse
        ≠ refreshOAuthTokenIntended "OLD" rotatedResponse := by
  decide

/-- C5: a key that is not exactly 64 case-insensitive hex characters makes
`encrypt` fail with the `InvalidKey` error, uniformly in the cipher and the
entropy source (so no IV is drawn and no cipher operation contributes to the
result); any 64-character upper-or-lower-case hex key passes validation and
`encrypt` returns a payload. -/
theorem encrypt_key_validation (keyHex : String) :
    (¬ (keyHex.data.length = 64 ∧ keyHex.data.all isHexCI = true) →
      ∀ (C : Cipher) (entropy : List Byte) (value : String),
        encrypt C entropy value keyHex
          = .error "Key must be 64 hexadecimal characters (0-f)")
    ∧ ((keyHex.data.length = 64 ∧ keyHex.data.all isHexCI = true) →
      ∀ (C : Cipher) (entropy : List Byte) (value : String),
        ∃ p, encrypt C entropy value keyHex = .ok p) := by
  constructor
  · intro h C entropy value
    have hneg : isValidKeyHex keyHex = false := by
      cases hv : isValidKeyHex keyHex
      · rfl
      · exfalso
        rw [isValidKeyHex, Bool.and_eq_true, beq_iff_eq] at hv
        exact h ⟨hv.1, hv.2⟩
    simp [encrypt, hneg]
  · intro h C entropy value
    have hpos : isValidKeyHex keyHex = true := by
      rw [isValidKeyHex, Bool.and_eq_true, beq_iff_eq]
      exact ⟨h.1, h.2⟩
    refine ⟨bytesToHex (randomBytes 12 entropy) ++
      (':' :: (bytesToHex (C.authTag (hexToBytes keyHex.data)
          (randomBytes 12 entropy) value) ++
        (':' :: bytesToHex (C.encBytes (hexToBytes keyHex.data)
          (randomBytes 12 entropy) value)))), ?_⟩
    simp [encrypt, hpos]

/-- C5 witness: a 63-character key and a key with a non-hex character both
fail with the exact `InvalidKey` message; a mixed-case 64-hex-character key
passes and produces a payload. -/
theorem encrypt_key_validation_witness :
    encrypt ivCipher [] "v"
        "zz00000000000000000000000000000000000000000000000000000000000000"
      = .error "Key must be 64 hexadecimal characters (0-f)"
    ∧ encrypt ivCipher [] "v" "abc"
      = .error "Key must be 64 hexadecimal characters (0-f)"
    ∧ ∃ p, encrypt ivCipher [] "v"
        "00112233445566778899aAbBcCdDeEfF00112233445566778899aabbccddeeff"
      = .ok p :=
  ⟨(encrypt_key_validation _).1 (by decide) ivCipher [] "v",
   (encrypt_key_validation _).1 (by decide) ivCipher [] "v",
   (encrypt_key_validation _).2 (by decide) ivCipher [] "v"⟩

/-- C7 counterexample: the claim says the `client_secret` field is present
in the request body if and only if the spec supplies a client secret.  A
spec that supplies the *empty* secret (`clientSecret = some ""`) refutes it:
the secret is supplied (`isSome`) yet JavaScript truthiness omits the field
from the body. -/
theorem refreshRequestBody_empty_secret_counterexample :
    emptySecretParams.clientSecret.isSome = true
    ∧ (refreshRequestBody emptySecretParams).map Prod.fst
        = ["grant_type", "refresh_token", "client_id"]
    ∧ "client_secret" ∉ (refreshRequestBody emptySecretParams).map Prod.fst := by
  decide

/-- C7 (amended): the body built by `refreshOAuthToken` contains
`grant_type=refresh_token`, the given refresh token and the client id, and
the `client_secret` field is present (with the supplied value) if and only
if the spec supplies a *non-empty* client secret; a supplied empty-string
secret is treated as absent and the field is omitted entirely. -/
theorem refreshRequestBody_fields (p : RefreshParams) :
    ("grant_type", "refresh_token") ∈ refreshRequestBody p
    ∧ ("refresh_token", p.refreshToken) ∈ refreshRequestBody p
    ∧ ("client_id", p.clientId) ∈ refreshRequestBody p
    ∧ ((∃ v, ("client_secret", v) ∈ refreshRequestBody p) ↔
        (∃ s, p.clientSecret = some s ∧ s ≠ ""))
    ∧ (∀ s, p.clientSecret = some s → s ≠ "" →
        ("client_secret", s) ∈ refreshRequestBody p) := by
  rcases hcs : p.clientSecret with _ | s
  · simp [refreshRequestBody, hcs]
  · by_cases hs : s = ""
    · simp [refreshRequestBody, hcs, hs]
    · simp [refreshRequestBody, hcs, hs]

/-- C7 witness: with a supplied non-empty secret the four fields are all
present, and the `client_secret` presence biconditional holds. -/
theorem refreshRequestBody_fields_witness :
    ("grant_type", "refresh_token") ∈ refreshRequestBody secretParams
    ∧ ("refresh_token", secretParams.refreshToken) ∈ refreshRequestBody secretParams
    ∧ ("client_id", secretParams.clientId) ∈ refreshRequestBody secretParams
    ∧ ((∃ v, ("client_secret", v) ∈ refreshRequestBody secretParams) ↔
        (∃ s, secretParams.clientSecret = some s ∧ s ≠ ""))
    ∧ (∀ s, secretParams.clientSecret = some s → s ≠ "" →
        ("client_secret", s) ∈ refreshRequestBody secretParams) :=
  refreshRequestBody_fields secretParams

/-- C8 counterexample: the claim says supplied input — including the empty
string — is written to the child's stdin and the stream then closed.  With
`stdin = ""` the truthiness guard `if (stdin)` skips the block: nothing is
written and the stream is never closed, identical to supplying no input. -/
theorem stdinActions_empty_input_counterexample :
    stdinActions (some "") = []
    ∧ stdinActions (some "") ≠ [StdinAction.write "", StdinAction.closeStream] := by
  decide

/-- C8 (amended): when a *non-empty* input string is supplied, `runCommand`
writes exactly that string to the child's stdin and closes the stream
immediately after the write; when the input is absent or the empty string,
the stream is neither written nor closed. -/
theorem stdinActions_write_then_close (s : String) (hs : s ≠ "") :
    stdinActions (some s) = [StdinAction.write s, StdinAction.closeStream]
    ∧ stdinActions none = []
    ∧ stdinActions (some "") = [] := by
  refine ⟨?_, rfl, rfl⟩
  simp [stdinActions, hs]

/-- C8 witness: concrete nonempty input `"prompt"`. -/
theorem stdinActions_write_then_close_witness :
    stdinActions (some "prompt")
      = [StdinAction.write "prompt", StdinAction.closeStream]
    ∧ stdinActions none = []
    ∧ stdinActions (some "") = [] :=
  stdinActions_write_then_close "prompt" (by decide)

/-- C9: for any agent other than `"gemini"`, `setupConfig` performs no token
exchange (the written credential does not depend on the exchange function at
all) and writes the original credential string verbatim; for `"gemini"` the
parsed refresh token is exchanged and the exchange result is written. -/
theorem setupConfig_refreshes_only_gemini (r1 r2 : String → String)
    (agent token : String) (td : TokenObj) (rt : String)
    (hrt : td.refresh_token = some rt) :
    (agent ≠ "gemini" →
      setupConfigCred r1 agent token td = .ok token
      ∧ setupConfigCred r1 agent token td = setupConfigCred r2 agent token td)
    ∧ setupConfigCred r1 "gemini" token td = .ok (r1 rt) := by
  constructor
  · intro hag
    constructor <;> simp [setupConfigCred, hrt, hag]
  · simp [setupConfigCred, hrt]

/-- C9 witness: the `"qwen"` agent's stored credential is written back
verbatim whatever the exchange would return, and `"gemini"`'s is exchanged. -/
theorem setupConfig_refreshes_only_gemini_witness :
    ("qwen" ≠ "gemini" →
      setupConfigCred (fun s => s ++ "#1") "qwen" "RAWTOKEN" storedToken
        = .ok "RAWTOKEN"
      ∧ setupConfigCred (fun s => s ++ "#1") "qwen" "RAWTOKEN" storedToken
        = setupConfigCred (fun s => s ++ "#2") "qwen" "RAWTOKEN" storedToken)
    ∧ setupConfigCred (fun s => s ++ "#1") "gemini" "RAWTOKEN" storedToken
      = .ok ("RT" ++ "#1") :=
  setupConfig_refreshes_only_gemini (fun s => s ++ "#1") (fun s => s ++ "#2")
    "qwen" "RAWTOKEN" storedToken "RT" (by decide)

/-- C2 counterexample: the claim says a zero exit yields the accumulated
stdout with *trailing* whitespace trimmed and nothing else trimmed.
`output.trim()` trims both ends: stdout `" hi"` followed by exit 0 settles
as `"hi"`, not `" hi"`. -/
theorem runCommand_trim_counterexample :
    stdoutData [PEvent.outData " hi".data, PEvent.close (some 0)] = " hi".data
    ∧ (runEvents false [PEvent.outData " hi".data, PEvent.close (some 0)]).settled
        = some (POutcome.success "hi".data)
    ∧ "hi".data ≠ " hi".data := by
  decide

/-- C2 (amended): for a trace of stream-data events followed by one terminal
event, `runCommand` settles in exactly one of three mutually exclusive ways:
an `error` event rejects with the launch error and no exit code; a zero exit
resolves with the accumulated stdout text with *leading and trailing*
whitespace trimmed (`output.trim()`); a nonzero (or `null`) exit code
rejects with that exact code and the accumulated stderr text. -/
theorem runCommand_terminal_outcomes (hideError : Bool) (pre : List PEvent)
    (hpre : pre.all isDataEvent = true) :
    (∀ msg, (runEvents hideError (pre ++ [PEvent.errorEvt msg])).settled
        = some (POutcome.launchFailure msg))
    ∧ (runEvents hideError (pre ++ [PEvent.close (some 0)])).settled
        = some (POutcome.success (jsTrim (stdoutData pre)))
    ∧ (∀ code, code ≠ some 0 →
        (runEvents hideError (pre ++ [PEvent.close code])).settled
          = some (POutcome.exitFailure code (stderrData pre))) := by
  have hfold := foldl_data_events hideError pre initState hpre
  refine ⟨?_, ?_, ?_⟩
  · intro msg
    unfold runEvents
    rw [List.foldl_append, hfold]
    simp [step, initState]
  · unfold runEvents
    rw [List.foldl_append, hfold]
    simp [step, initState]
  · intro code hcode
    unfold runEvents
    rw [List.foldl_append, hfold]
    simp [step, initState, hcode]

/-- C2 witness: a trace with one stdout chunk and one stderr chunk, resolved
through each of the three terminal events. -/
theorem runCommand_terminal_outcomes_witness :
    (runEvents false ([PEvent.outData "ok\n".data, PEvent.errData "warn".data]
        ++ [PEvent.errorEvt "spawn gemini ENOENT"])).settled
      = some (POutcome.launchFailure "spawn gemini ENOENT")
    ∧ (runEvents false ([PEvent.outData "ok\n".data, PEvent.errData "warn".data]
        ++ [PEvent.close (some 0)])).settled
      = some (POutcome.success (jsTrim (stdoutData
          [PEvent.outData "ok\n".data, PEvent.errData "warn".data])))
    ∧ (runEvents false ([PEvent.outData "ok\n".data, PEvent.errData "warn".data]
        ++ [PEvent.close (some 1)])).settled
      = some (POutcome.exitFailure (some 1) (stderrData
          [PEvent.outData "ok\n".data, PEvent.errData "warn".data])) := by
  obtain ⟨h1, h2, h3⟩ := runCommand_terminal_outcomes false
    [PEvent.outData "ok\n".data, PEvent.errData "warn".data] (by decide)
  exact ⟨h1 _, h2, h3 (some 1) (by decide)⟩

/-- C6: the settlement guard is idempotent — once the state has settled to
some outcome, delivering any further events (stream data, `error`, or
`close`) leaves that outcome unchanged. -/
theorem runCommand_settles_at_most_once (hideError : Bool)
    (es1 es2 : List PEvent) (o : POutcome)
    (h : (runEvents hideError es1).settled = some o) :
    (runEvents hideError (es1 ++ es2)).settled = some o := by
  unfold runEvents at h ⊢
  rw [List.foldl_append]
  exact foldl_settled_some hideError es2 h

/-- C6 witness: a zero exit settles as success, and a later nonzero `close`,
a late `error` event and more stream data do not change it. -/
theorem runCommand_settles_at_most_once_witness :
    (runEvents false ([PEvent.close (some 0)] ++
      [PEvent.close (some 1), PEvent.errorEvt "late", PEvent.outData "x".data])).settled
    = some (POutcome.success []) :=
  runCommand_settles_at_most_once false [PEvent.close (some 0)]
    [PEvent.close (some 1), PEvent.errorEvt "late", PEvent.outData "x".data]
    (POutcome.success []) (by decide)

/-- C10 counterexample: the claim says the Success value preserves carriage
returns exactly as produced.  A trailing carriage return is whitespace, so
`output.trim()` removes it: stdout `"a\r"` with exit 0 settles as `"a"`,
which contains no carriage return although the produced output did. -/
theorem runCommand_cr_counterexample :
    stdoutData [PEvent.outData "a\r".data] = "a\r".data
    ∧ (runEvents false ([PEvent.outData "a\r".data]
        ++ [PEvent.close (some 0)])).settled
      = some (POutcome.success "a".data)
    ∧ '\r' ∈ "a\r".data
    ∧ '\r' ∉ "a".data := by
  decide

/-- C10 (amended): on a zero exit the Success value is the accumulated raw
stdout trimmed at both ends — so carriage returns outside the trimmed ends
are preserved — while the copy echoed to the console has every carriage
return replaced by a newline; whenever the raw stdout contains a carriage
return the Success text and the echoed text differ. -/
theorem runCommand_cr_trim_and_echo (hideError : Bool) (pre : List PEvent)
    (hpre : pre.all isOutData = true) :
    (runEvents hideError (pre ++ [PEvent.close (some 0)])).settled
      = some (POutcome.success (jsTrim (stdoutData pre)))
    ∧ (runEvents hideError (pre ++ [PEvent.close (some 0)])).echoed
      = crToLf (stdoutData pre)
    ∧ ('\r' ∈ stdoutData pre →
        jsTrim (stdoutData pre) ≠ crToLf (stdoutData pre)) := by
  have hdata := outData_all_data hpre
  have hfold := foldl_data_events hideError pre initState hdata
  have hech := echoedData_of_outData hideError pre hpre
  refine ⟨?_, ?_, fun hcr => jsTrim_ne_crToLf hcr⟩
  · unfold runEvents
    rw [List.foldl_append, hfold]
    simp [step, initState]
  · unfold runEvents
    rw [List.foldl_append, hfold]
    simp [step, initState, hech]

/-- C10 witness: stdout `"a\rb"` with exit 0 — the Success value keeps the
interior carriage return, the echo replaces it, and the two differ. -/
theorem runCommand_cr_trim_and_echo_witness :
    (runEvents false ([PEvent.outData "a\rb".data]
        ++ [PEvent.close (some 0)])).settled
      = some (POutcome.success (jsTrim (stdoutData [PEvent.outData "a\rb".data])))
    ∧ (runEvents false ([PEvent.outData "a\rb".data]
        ++ [PEvent.close (some 0)])).echoed
      = crToLf (stdoutData [PEvent.outData "a\rb".data])
    ∧ jsTrim (stdoutData [PEvent.outData "a\rb".data])
      ≠ crToLf (stdoutData [PEvent.outData "a\rb".data]) := by
  obtain ⟨h1, h2, h3⟩ := runCommand_cr_trim_and_echo false
    [PEvent.outData "a\rb".data] (by decide)
  exact ⟨h1, h2, h3 (by decide)⟩

/-- C3: for every valid 64-hex-character key and every plaintext, the
payload is exactly three colon-separated segments, each consisting only of
hex characters: the hex of the 12-byte IV (24 hex characters), the hex of
the 16-byte authentication tag (32 hex characters), and the hex of the
ciphertext, in that order.  The tag length is the GCM contract of the
external cipher, taken as a hypothesis on the oracle. -/
theorem encrypt_payload_three_hex_segments (C : Cipher) (entropy : List Byte)
    (value keyHex : String) (hk : isValidKeyHex keyHex = true)
    (hent : 12 ≤ entropy.length)
    (htag : (C.authTag (hexToBytes keyHex.data) (randomBytes 12 entropy)
        value).length = 16) :
    ∃ ivH tagH ctH : List Char,
      encrypt C entropy value keyHex
        = .ok (ivH ++ (':' :: (tagH ++ (':' :: ctH))))
      ∧ splitOnCh ':' (ivH ++ (':' :: (tagH ++ (':' :: ctH)))) = [ivH, tagH, ctH]
      ∧ ivH.length = 24 ∧ tagH.length = 32
      ∧ ivH.all isHexLower = true ∧ tagH.all isHexLower = true
      ∧ ctH.all isHexLower = true
      ∧ ivH = bytesToHex (randomBytes 12 entropy)
      ∧ tagH = bytesToHex (C.authTag (hexToBytes keyHex.data)
          (randomBytes 12 entropy) value)
      ∧ ctH = bytesToHex (C.encBytes (hexToBytes keyHex.data)
          (randomBytes 12 entropy) value) := by
  refine ⟨bytesToHex (randomBytes 12 entropy),
    bytesToHex (C.authTag (hexToBytes keyHex.data) (randomBytes 12 entropy) value),
    bytesToHex (C.encBytes (hexToBytes keyHex.data) (randomBytes 12 entropy) value),
    ?_, ?_, ?_, ?_, bytesToHex_all_hex _, bytesToHex_all_hex _,
    bytesToHex_all_hex _, rfl, rfl, rfl⟩
  · simp [encrypt, hk]
  · exact splitOnCh_three (colon_not_mem_bytesToHex _)
      (colon_not_mem_bytesToHex _) (colon_not_mem_bytesToHex _)
  · have hlen : (randomBytes 12 entropy).length = 12 := by
      simp [randomBytes]
      omega
    rw [bytesToHex_length, hlen]
  · rw [bytesToHex_length, htag]

/-- C3 witness: the spec's end-to-end scenario shape — the all-zero key,
plaintext `"hello"`, a concrete 12-byte entropy prefix and the fixture
cipher whose tag is 16 bytes. -/
theorem encrypt_payload_three_hex_segments_witness :
    ∃ ivH tagH ctH : List Char,
      encrypt ivCipher (List.replicate 12 (0 : Byte)) "hello" zeros64
        = .ok (ivH ++ (':' :: (tagH ++ (':' :: ctH))))
      ∧ splitOnCh ':' (ivH ++ (':' :: (tagH ++ (':' :: ctH)))) = [ivH, tagH, ctH]
      ∧ ivH.length = 24 ∧ tagH.length = 32
      ∧ ivH.all isHexLower = true ∧ tagH.all isHexLower = true
      ∧ ctH.all isHexLower = true
      ∧ ivH = bytesToHex (randomBytes 12 (List.replicate 12 (0 : Byte)))
      ∧ tagH = bytesToHex (ivCipher.authTag (hexToBytes zeros64.data)
          (randomBytes 12 (List.replicate 12 (0 : Byte))) "hello")
      ∧ ctH = bytesToHex (ivCipher.encBytes (hexToBytes zeros64.data)
          (randomBytes 12 (List.replicate 12 (0 : Byte))) "hello") :=
  encrypt_payload_three_hex_segments ivCipher (List.replicate 12 (0 : Byte))
    "hello" zeros64 (by decide) (by decide) (by decide)

/-- C4: `encrypt` derives its IV from fresh entropy drawn on each call, so
two calls with the same valid key and the same plaintext whose entropy
sources yield different 12-byte draws produce payloads with different IV
segments; and whenever the cipher maps the two distinct IVs to distinct
ciphertexts (as a nondegenerate cipher does), the ciphertext segments differ
as well. -/
theorem encrypt_fresh_iv_distinct_payloads (C : Cipher) (e1 e2 : List Byte)
    (value keyHex : String) (hk : isValidKeyHex keyHex = true)
    (hiv : randomBytes 12 e1 ≠ randomBytes 12 e2)
    (hct : C.encBytes (hexToBytes keyHex.data) (randomBytes 12 e1) value
         ≠ C.encBytes (hexToBytes keyHex.data) (randomBytes 12 e2) value) :
    ∃ iv1H tag1H ct1H iv2H tag2H ct2H : List Char,
      encrypt C e1 value keyHex
        = .ok (iv1H ++ (':' :: (tag1H ++ (':' :: ct1H))))
      ∧ encrypt C e2 value keyHex
        = .ok (iv2H ++ (':' :: (tag2H ++ (':' :: ct2H))))
      ∧ splitOnCh ':' (iv1H ++ (':' :: (tag1H ++ (':' :: ct1H))))
        = [iv1H, tag1H, ct1H]
      ∧ splitOnCh ':' (iv2H ++ (':' :: (tag2H ++ (':' :: ct2H))))
        = [iv2H, tag2H, ct2H]
      ∧ iv1H ≠ iv2H ∧ ct1H ≠ ct2H := by
  refine ⟨bytesToHex (randomBytes 12 e1),
    bytesToHex (C.authTag (hexToBytes keyHex.data) (randomBytes 12 e1) value),
    bytesToHex (C.encBytes (hexToBytes keyHex.data) (randomBytes 12 e1) value),
    bytesToHex (randomBytes 12 e2),
    bytesToHex (C.authTag (hexToBytes keyHex.data) (randomBytes 12 e2) value),
    bytesToHex (C.encBytes (hexToBytes keyHex.data) (randomBytes 12 e2) value),
    by simp [encrypt, hk], by simp [encrypt, hk],
    splitOnCh_three (colon_not_mem_bytesToHex _) (colon_not_mem_bytesToHex _)
      (colon_not_mem_bytesToHex _),
    splitOnCh_three (colon_not_mem_bytesToHex _) (colon_not_mem_bytesToHex _)
      (colon_not_mem_bytesToHex _),
    fun he => hiv (bytesToHex_inj he),
    fun he => hct (bytesToHex_inj he)⟩

/-- C4 witness: two concrete entropy draws (all-zero and all-one bytes)
under the all-zero key with the fixture cipher produce payloads whose IV
segments and ciphertext segments both differ. -/
theorem encrypt_fresh_iv_distinct_payloads_witness :
    ∃ iv1H tag1H ct1H iv2H tag2H ct2H : List Char,
      encrypt ivCipher (List.replicate 12 (0 : Byte)) "hello" zeros64
        = .ok (iv1H ++ (':' :: (tag1H ++ (':' :: ct1H))))
      ∧ encrypt ivCipher (List.replicate 12 (1 : Byte)) "hello" zeros64
        = .ok (iv2H ++ (':' :: (tag2H ++ (':' :: ct2H))))
      ∧ splitOnCh ':' (iv1H ++ (':' :: (tag1H ++ (':' :: ct1H))))
        = [iv1H, tag1H, ct1H]
      ∧ splitOnCh ':' (iv2H ++ (':' :: (tag2H ++ (':' :: ct2H))))
        = [iv2H, tag2H, ct2H]
      ∧ iv1H ≠ iv2H ∧ ct1H ≠ ct2H :=
  encrypt_fresh_iv_distinct_payloads ivCipher (List.replicate 12 (0 : Byte))
    (List.replicate 12 (1 : Byte)) "hello" zeros64 (by decide) (by decide)
    (by decide)

end PromptOps
